import Mathlib

/-!
Shallow embedding of the penguins game-state engine
(`socha/api/plugin/penguins/game_state.py`).

The `GameState` class and its methods (`round`, `current_team`,
`possible_moves`, `_get_possible_moves`, `current_team_from_turn`,
`perform_move`, `_update_team`, `is_valid_move`) are translated from the
source file.  The collaborators `Board`, `Team`, `Move`, `Penguin`, `Field`
and the coordinate conversion live in sibling modules that are external to
this engine; they are modelled from the spec's contracts (§3, §6).

Conventions of the embedding:
* Machine integers become `Nat` (all quantities here are non-negative:
  turn counter, fish counts, grid indices).
* Python object identity is modelled by an explicit `objId : Nat` carried
  by each `Team` value; the cyclic `opponent` attribute is modelled as the
  `opponentId` of the referenced object.  The pickle round-trip in
  `perform_move` produces copies with fresh object ids, supplied by a
  counter argument `ctr`.
* Mutation of `self` is modelled by explicit state passing:
  `perform_move` returns the pair (receiver after the call, result).
  A raised exception becomes `Except.error`; the two distinct Python
  failure modes (the `ValueError` raised explicitly, and the
  `AttributeError` that `None.name` would raise) are separate constructors.
* The geometric slide enumeration `Board.possible_moves_from` is out of the
  engine's scope (spec §1), so the development is parametric in a function
  `slides : Board → HexCoordinate → TeamEnum → List Move`.
-/

namespace Penguins

/-- Modelled from the spec: the two enumerated team identities
(`TeamEnum` in `team.py`, which is not part of the engine source). -/
inductive TeamEnum where
  | ONE
  | TWO
deriving DecidableEq, Repr

/-- Modelled from the spec: hex-system coordinate (`coordinate.py` is
external).  Grid addresses are non-negative. -/
structure HexCoordinate where
  x : Nat
  y : Nat
deriving DecidableEq, Repr

/-- Modelled from the spec: cartesian-system coordinate (`coordinate.py`
is external). -/
structure CartesianCoordinate where
  x : Nat
  y : Nat
deriving DecidableEq, Repr

/-- Modelled from the spec: the invertible cartesian-to-hex conversion
(§3: "conversion between the two is total and lossless"); the doubled-x
hex layout makes it injective on the grid. -/
def CartesianCoordinate.to_hex (c : CartesianCoordinate) : HexCoordinate :=
  ⟨2 * c.x + c.y % 2, c.y⟩

/-- Modelled from the spec: a piece (`Penguin` in `team.py`): owning team
identity and current coordinate. -/
structure Penguin where
  coordinate : HexCoordinate
  team_enum : TeamEnum
deriving DecidableEq, Repr

/-- Modelled from the spec: a grid cell (§3 `Field`): a non-negative
resource (fish) count and at most one occupying piece. -/
structure Field where
  fish : Nat
  penguin : Option Penguin
deriving DecidableEq, Repr

def Field.get_fish (f : Field) : Nat :=
  f.fish

def Field.is_occupied (f : Field) : Bool :=
  f.penguin.isSome

/-- Modelled from the spec: a move value (§3): acting team identity, an
optional source coordinate (absent ⇒ placement), a destination coordinate.
Equality is structural (a Python dataclass compares all fields). -/
structure Move where
  team_enum : TeamEnum
  from_value : Option HexCoordinate
  to_value : HexCoordinate
deriving DecidableEq, Repr

/-- Modelled from the spec: the board (§3, §6): a fixed `width × height`
grid of Fields, addressed by hex coordinates (`get_field`).  The grid is
kept as a total function so that `get_field` is total. -/
structure Board where
  width : Nat
  height : Nat
  fieldAt : HexCoordinate → Field

def Board.get_field (b : Board) (position : HexCoordinate) : Field :=
  b.fieldAt position

/-- Modelled from the spec (§6 `get_teams_pieces`): the pieces of the given
team currently on the board, collected by scanning the grid. -/
def Board.get_teams_penguins (b : Board) (team : TeamEnum) : List Penguin :=
  (List.range b.width).flatMap fun x =>
    (List.range b.height).filterMap fun y =>
      match (b.get_field (CartesianCoordinate.to_hex ⟨x, y⟩)).penguin with
      | some p => if p.team_enum = team then some p else none
      | none => none

/-- Modelled from the spec (§3): `Board.move` is pure: it returns a new
Board where the destination's resource is harvested to 0 and its occupant
becomes the moving piece, and the source field (if any) is vacated. -/
def Board.move (b : Board) (move : Move) : Board :=
  { b with
    fieldAt := fun c =>
      if c = move.to_value then
        { fish := 0, penguin := some ⟨move.to_value, move.team_enum⟩ }
      else if some c = move.from_value then
        { b.fieldAt c with penguin := none }
      else
        b.fieldAt c }

/-- Modelled from the spec: the per-side aggregate (`Team` in `team.py`):
identity, owned pieces, cumulative score (`fish`), move history (`moves`).
`objId` models Python object identity and `opponentId` models the cyclic
`opponent` attribute as the id of the referenced Team object. -/
structure Team where
  objId : Nat
  name : TeamEnum
  penguins : List Penguin
  fish : Nat
  moves : List Move
  opponentId : Nat
deriving DecidableEq, Repr

/-- `GameState.__init__`: board, turn counter, the two team snapshots and
the optional last move. -/
structure GameState where
  board : Board
  turn : Nat
  first_team : Team
  second_team : Team
  last_move : Option Move

/-- The two Python failure modes of `perform_move`: the `ValueError`
raised for an invalid move, and the `AttributeError` that evaluating
`self.current_team.name` would raise if `current_team` were `None`. -/
inductive PerformError where
  | invalidMove
  | noneHasNoName
deriving DecidableEq, Repr

/-- `GameState.round`: `int((self.turn + 1) / 2)`; on the non-negative
turn counter the float division followed by `int` truncation is `Nat`
floor division. -/
def GameState.round (g : GameState) : Nat :=
  (g.turn + 1) / 2

section Engine

variable (slides : Board → HexCoordinate → TeamEnum → List Move)

/-- The body of `GameState._get_possible_moves` for a present (non-`None`)
team argument: if the team has fewer than 4 penguins on the board, one
placement move per unoccupied field holding exactly 1 fish, scanned in
x-major order; otherwise the union over the team's penguins of the board's
slide enumeration (`self.board.possible_moves_from`, modelled by the
parameter `slides`). -/
def GameState.possible_moves_of (g : GameState) (current_team : Team) : List Move :=
  if (g.board.get_teams_penguins current_team.name).length < 4 then
    (List.range g.board.width).flatMap fun x =>
      (List.range g.board.height).filterMap fun y =>
        let field := g.board.get_field (CartesianCoordinate.to_hex ⟨x, y⟩)
        if field.is_occupied = false ∧ field.get_fish = 1 then
          some ⟨current_team.name, none, CartesianCoordinate.to_hex ⟨x, y⟩⟩
        else
          none
  else
    (g.board.get_teams_penguins current_team.name).flatMap fun piece =>
      slides g.board piece.coordinate current_team.name

/-- `GameState.current_team_from_turn`: compute both teams' possible
moves; on an even turn prefer the first team if its list is non-empty
(Python list truthiness), else the second, else `None`; on an odd turn the
preference is reversed. -/
def GameState.current_team_from_turn (g : GameState) (turn : Nat) : Option Team :=
  let possible_moves_first := g.possible_moves_of slides g.first_team
  let possible_moves_second := g.possible_moves_of slides g.second_team
  if turn % 2 = 0 then
    if possible_moves_first ≠ [] then some g.first_team
    else if possible_moves_second ≠ [] then some g.second_team
    else none
  else
    if possible_moves_second ≠ [] then some g.second_team
    else if possible_moves_first ≠ [] then some g.first_team
    else none

/-- `GameState.current_team` property: `current_team_from_turn(self.turn)`. -/
def GameState.current_team (g : GameState) : Option Team :=
  g.current_team_from_turn slides g.turn

/-- `GameState._get_possible_moves`: the argument defaults to
`self.current_team` when absent (`current_team or self.current_team`);
a still-absent team yields the empty list (`if not current_team`). -/
def GameState.get_possible_moves (g : GameState) (current_team : Option Team) : List Move :=
  match current_team with
  | some t => g.possible_moves_of slides t
  | none =>
    match g.current_team slides with
    | some t => g.possible_moves_of slides t
    | none => []

/-- `GameState.possible_moves` property:
`self._get_possible_moves(self.current_team)`. -/
def GameState.possible_moves (g : GameState) : List Move :=
  g.get_possible_moves slides (g.current_team slides)

/-- `GameState.is_valid_move`: `move in self.possible_moves`. -/
def GameState.is_valid_move (g : GameState) (move : Move) : Bool :=
  decide (move ∈ g.possible_moves slides)

end Engine

/-- The pickle round-trip `pickle.loads(pickle.dumps(team, protocol=-1))`:
a deep copy, i.e. the same data under a fresh object identity.  (Pickling
also clones the cyclic `opponent` reference into an untracked stray copy;
since `perform_move` overwrites both copies' `opponent` before the new
state is assembled, the stray is unobservable and `opponentId` is carried
over unchanged here.) -/
def Team.deepCopy (newId : Nat) (t : Team) : Team :=
  { t with objId := newId }

/-- The in-place coordinate update of
`next(filter(lambda x: x.coordinate == move.from_value, team.penguins), None)`:
the first penguin whose coordinate equals the (optional) source gets the
new coordinate; the rest of the list is untouched. -/
def setFirstMatchCoord : List Penguin → Option HexCoordinate → HexCoordinate → List Penguin
  | [], _, _ => []
  | p :: ps, from_value, newCoord =>
    if some p.coordinate = from_value then
      { p with coordinate := newCoord } :: ps
    else
      p :: setFirstMatchCoord ps from_value newCoord

/-- `GameState._update_team`, with the mutation of the `team` argument made
explicit as a returned value: append the move to the history, read the
credited fish from the destination field of the *old* board, move the
matching penguin to the new board's destination occupant's coordinate or
append that occupant as a new penguin, and add the credited fish. -/
def GameState.update_team (old_board : Board) (team : Team) (move : Move)
    (new_board : Board) : Team :=
  let team1 := { team with moves := team.moves ++ [move] }
  let adding_fish := (old_board.get_field move.to_value).get_fish
  let new_penguin := (new_board.get_field move.to_value).penguin
  let team2 :=
    match team1.penguins.find? (fun p => decide (some p.coordinate = move.from_value)),
          new_penguin with
    | some _, some np =>
      { team1 with penguins := setFirstMatchCoord team1.penguins move.from_value np.coordinate }
    | some _, none => team1
    | none, some np => { team1 with penguins := team1.penguins ++ [np] }
    | none, none => team1
  { team2 with fish := team2.fish + adding_fish }

section Transition

variable (slides : Board → HexCoordinate → TeamEnum → List Move)

/-- `GameState.perform_move`, with the receiver threaded explicitly: the
result is (the receiver after the call, the returned state or the raised
error).  The guard mirrors Python's short-circuit
`self.is_valid_move(move) and self.current_team.name == move.team_enum`:
the attribute access on `current_team` happens only when the first
conjunct is true.  On success the board is asked for the new board, both
teams are deep-copied under fresh ids `ctr` and `ctr + 1`, the mover's
copy is updated, the copies' opponent references are re-linked to each
other, and a new state with `turn + 1` and `last_move = move` is built. -/
def GameState.perform_move (g : GameState) (move : Move) (ctr : Nat) :
    GameState × Except PerformError GameState :=
  if g.is_valid_move slides move then
    match g.current_team slides with
    | none => (g, Except.error PerformError.noneHasNoName)
    | some current =>
      if current.name = move.team_enum then
        let new_board := g.board.move move
        let new_first_team := g.first_team.deepCopy ctr
        let new_second_team := g.second_team.deepCopy (ctr + 1)
        let updated :=
          if current.name = TeamEnum.ONE then
            (GameState.update_team g.board new_first_team move new_board, new_second_team)
          else
            (new_first_team, GameState.update_team g.board new_second_team move new_board)
        let linked_first := { updated.1 with opponentId := updated.2.objId }
        let linked_second := { updated.2 with opponentId := linked_first.objId }
        (g, Except.ok
          { board := new_board, turn := g.turn + 1, first_team := linked_first,
            second_team := linked_second, last_move := some move })
      else
        (g, Except.error PerformError.invalidMove)
  else
    (g, Except.error PerformError.invalidMove)

end Transition

/-- The team snapshot of a state belonging to the given identity (the
selection made by `if self.current_team.name == TeamEnum.ONE`). -/
def GameState.team_of (g : GameState) (te : TeamEnum) : Team :=
  match te with
  | TeamEnum.ONE => g.first_team
  | TeamEnum.TWO => g.second_team


/-! ## Concrete fixtures

Small concrete boards, teams and states used to evaluate the definitions
on explicit inputs. -/

/-- A slide enumeration that offers no slides (its geometric content is
outside the engine, spec §1). -/
def slides0 : Board → HexCoordinate → TeamEnum → List Move := fun _ _ _ => []

/-- A 1×1 board whose only scanned field holds one fish and no penguin. -/
def b0 : Board := ⟨1, 1, fun _ => ⟨1, none⟩⟩

def t1 : Team := ⟨0, TeamEnum.ONE, [], 0, [], 1⟩

def t2 : Team := ⟨1, TeamEnum.TWO, [], 0, [], 0⟩

def g0 : GameState := ⟨b0, 0, t1, t2, none⟩

/-- The placement move onto the single field of `b0`. -/
def m0 : Move := ⟨TeamEnum.ONE, none, ⟨0, 0⟩⟩

/-- The state produced by performing `m0` on `g0` under fresh ids 5, 6. -/
def w0 : GameState := ((g0.perform_move slides0 m0 5).2.toOption).getD g0

/-- A 2×2 board with no fish and no penguins: both teams are in the
placement phase but no field qualifies, so the state is terminal. -/
def bEmpty : Board := ⟨2, 2, fun _ => ⟨0, none⟩⟩

def gT : GameState := ⟨bEmpty, 0, t1, t2, none⟩

/-! ## Helper lemmas -/

/-- The receiver of `perform_move` after the call is the receiver before
the call, on every control path: every statement of the method binds only
locals or mutates the freshly pickled copies, never `self`. -/
theorem perform_move_fst (slides : Board → HexCoordinate → TeamEnum → List Move)
    (g : GameState) (m : Move) (ctr : Nat) :
    (g.perform_move slides m ctr).1 = g := by
  unfold GameState.perform_move
  split
  · split
    · rfl
    · split
      · rfl
      · rfl
  · rfl

/-- `_update_team` adds exactly the old destination field's fish to the
team's score. -/
theorem update_team_fish (old_board : Board) (team : Team) (move : Move)
    (new_board : Board) :
    (GameState.update_team old_board team move new_board).fish =
      team.fish + (old_board.get_field move.to_value).get_fish := by
  unfold GameState.update_team
  dsimp only
  split <;> rfl

/-- `_update_team` does not change the object identity of the team it
mutates. -/
theorem update_team_objId (old_board : Board) (team : Team) (move : Move)
    (new_board : Board) :
    (GameState.update_team old_board team move new_board).objId = team.objId := by
  unfold GameState.update_team
  dsimp only
  split <;> rfl

/-- When neither team has a legal move, `current_team_from_turn` is `None`
for every turn value. -/
theorem current_team_from_turn_eq_none
    (slides : Board → HexCoordinate → TeamEnum → List Move) (g : GameState) (t : Nat)
    (h1 : g.possible_moves_of slides g.first_team = [])
    (h2 : g.possible_moves_of slides g.second_team = []) :
    g.current_team_from_turn slides t = none := by
  unfold GameState.current_team_from_turn
  simp [h1, h2]

/-- When neither team has a legal move, `possible_moves` is the empty
list. -/
theorem possible_moves_eq_nil
    (slides : Board → HexCoordinate → TeamEnum → List Move) (g : GameState)
    (h1 : g.possible_moves_of slides g.first_team = [])
    (h2 : g.possible_moves_of slides g.second_team = []) :
    g.possible_moves slides = [] := by
  unfold GameState.possible_moves GameState.get_possible_moves GameState.current_team
  rw [current_team_from_turn_eq_none slides g g.turn h1 h2]

/-! ## Claim theorems -/

/-- C7: for every GameState with non-negative turn counter `t`, the
`round` property equals `⌊(t + 1) / 2⌋` (the `int`-truncated float
division of the source coincides with the rational floor). -/
theorem c7_round_eq_floor (g : GameState) :
    (g.round : ℤ) = ⌊(((g.turn : ℚ) + 1) / 2)⌋ := by
  have h1 : ((g.turn : ℚ) + 1) / 2 = (((g.turn : ℤ) + 1 : ℤ) : ℚ) / ((2 : ℕ) : ℚ) := by
    push_cast
    ring
  rw [h1, Rat.floor_intCast_div_natCast]
  unfold GameState.round
  omega

/-- C1: whenever `perform_move` succeeds, the receiver GameState is left
observably unchanged: its turn, board and both team snapshots (with their
piece lists, scores and move histories) are structurally identical before
and after the call. -/
theorem c1_perform_move_receiver_unchanged
    (slides : Board → HexCoordinate → TeamEnum → List Move)
    (g : GameState) (m : Move) (ctr : Nat) (g' : GameState)
    (h : (g.perform_move slides m ctr).2 = Except.ok g') :
    (g.perform_move slides m ctr).1.turn = g.turn ∧
    (g.perform_move slides m ctr).1.board = g.board ∧
    (g.perform_move slides m ctr).1.first_team = g.first_team ∧
    (g.perform_move slides m ctr).1.second_team = g.second_team ∧
    (g.perform_move slides m ctr).1.first_team.penguins = g.first_team.penguins ∧
    (g.perform_move slides m ctr).1.first_team.fish = g.first_team.fish ∧
    (g.perform_move slides m ctr).1.first_team.moves = g.first_team.moves ∧
    (g.perform_move slides m ctr).1.second_team.penguins = g.second_team.penguins ∧
    (g.perform_move slides m ctr).1.second_team.fish = g.second_team.fish ∧
    (g.perform_move slides m ctr).1.second_team.moves = g.second_team.moves := by
  simp [perform_move_fst]

/-- C1 witness: on the concrete state `g0` the placement move `m0`
succeeds and the receiver is unchanged. -/
theorem c1_witness :
    ((g0.perform_move slides0 m0 5).2 = Except.ok w0) ∧
    ((g0.perform_move slides0 m0 5).1.turn = g0.turn ∧
     (g0.perform_move slides0 m0 5).1.board = g0.board ∧
     (g0.perform_move slides0 m0 5).1.first_team = g0.first_team ∧
     (g0.perform_move slides0 m0 5).1.second_team = g0.second_team ∧
     (g0.perform_move slides0 m0 5).1.first_team.penguins = g0.first_team.penguins ∧
     (g0.perform_move slides0 m0 5).1.first_team.fish = g0.first_team.fish ∧
     (g0.perform_move slides0 m0 5).1.first_team.moves = g0.first_team.moves ∧
     (g0.perform_move slides0 m0 5).1.second_team.penguins = g0.second_team.penguins ∧
     (g0.perform_move slides0 m0 5).1.second_team.fish = g0.second_team.fish ∧
     (g0.perform_move slides0 m0 5).1.second_team.moves = g0.second_team.moves) :=
  ⟨rfl, c1_perform_move_receiver_unchanged slides0 g0 m0 5 w0 rfl⟩

/-- C2: for a move that is not in the current team's legal-move set, or
whose declared acting-team identity differs from the current team's, the
call signals InvalidMove (the `ValueError`, not the attribute error) and
the receiver is left completely unchanged — no partial effects. -/
theorem c2_invalid_move_atomic
    (slides : Board → HexCoordinate → TeamEnum → List Move)
    (g : GameState) (m : Move) (ctr : Nat)
    (h : m ∉ g.possible_moves slides ∨
         ∃ t, g.current_team slides = some t ∧ m.team_enum ≠ t.name) :
    (g.perform_move slides m ctr).1 = g ∧
    (g.perform_move slides m ctr).2 = Except.error PerformError.invalidMove := by
  refine ⟨perform_move_fst slides g m ctr, ?_⟩
  unfold GameState.perform_move
  rcases h with h | ⟨t, ht, hne⟩
  · have hv : g.is_valid_move slides m = false := by
      unfold GameState.is_valid_move
      exact decide_eq_false h
    simp [hv]
  · by_cases hv : g.is_valid_move slides m
    · have hcond : ¬t.name = m.team_enum := fun hh => hne hh.symm
      rw [if_pos hv, ht]
      simp [hcond]
    · rw [if_neg hv]

/-- C2 witness: on `g0`, a move declared for the wrong team is not in the
legal-move set; the call fails with InvalidMove and leaves `g0` as it
was. -/
theorem c2_witness :
    ((⟨TeamEnum.TWO, none, ⟨0, 0⟩⟩ : Move) ∉ g0.possible_moves slides0 ∨
       ∃ t, g0.current_team slides0 = some t ∧
         (⟨TeamEnum.TWO, none, ⟨0, 0⟩⟩ : Move).team_enum ≠ t.name) ∧
    ((g0.perform_move slides0 ⟨TeamEnum.TWO, none, ⟨0, 0⟩⟩ 5).1 = g0 ∧
     (g0.perform_move slides0 ⟨TeamEnum.TWO, none, ⟨0, 0⟩⟩ 5).2 =
       Except.error PerformError.invalidMove) :=
  ⟨Or.inl (by decide),
   c2_invalid_move_atomic slides0 g0 ⟨TeamEnum.TWO, none, ⟨0, 0⟩⟩ 5 (Or.inl (by decide))⟩

/-- C8: in a terminal GameState (neither team has a legal move),
`current_team` is `None` and `possible_moves` is the empty list; both
queries are ordinary total computations, not errors. -/
theorem c8_terminal_no_team_no_moves
    (slides : Board → HexCoordinate → TeamEnum → List Move) (g : GameState)
    (h1 : g.possible_moves_of slides g.first_team = [])
    (h2 : g.possible_moves_of slides g.second_team = []) :
    g.current_team slides = none ∧ g.possible_moves slides = [] :=
  ⟨current_team_from_turn_eq_none slides g g.turn h1 h2,
   possible_moves_eq_nil slides g h1 h2⟩

/-- C8 witness: on the fishless board `bEmpty` neither team has a move;
`current_team` is `None` and `possible_moves` is empty. -/
theorem c8_witness :
    (gT.possible_moves_of slides0 gT.first_team = [] ∧
     gT.possible_moves_of slides0 gT.second_team = []) ∧
    (gT.current_team slides0 = none ∧ gT.possible_moves slides0 = []) :=
  ⟨⟨by decide, by decide⟩, c8_terminal_no_team_no_moves slides0 gT (by decide) (by decide)⟩

/-- C10: in a terminal GameState every move is reported invalid and
`perform_move` raises InvalidMove; the validation short-circuits on the
empty legal-move set, so the undefined current team is never dereferenced
(the attribute-error path is not taken). -/
theorem c10_terminal_rejects_every_move
    (slides : Board → HexCoordinate → TeamEnum → List Move)
    (g : GameState) (m : Move) (ctr : Nat)
    (h1 : g.possible_moves_of slides g.first_team = [])
    (h2 : g.possible_moves_of slides g.second_team = []) :
    g.is_valid_move slides m = false ∧
    (g.perform_move slides m ctr).2 = Except.error PerformError.invalidMove := by
  have hv : g.is_valid_move slides m = false := by
    unfold GameState.is_valid_move
    rw [possible_moves_eq_nil slides g h1 h2]
    simp
  refine ⟨hv, ?_⟩
  unfold GameState.perform_move
  rw [if_neg (by simp [hv])]

/-- C10 witness: on the terminal state `gT` the concrete move `m0` is
invalid and `perform_move` raises InvalidMove. -/
theorem c10_witness :
    (gT.possible_moves_of slides0 gT.first_team = [] ∧
     gT.possible_moves_of slides0 gT.second_team = []) ∧
    (gT.is_valid_move slides0 m0 = false ∧
     (gT.perform_move slides0 m0 7).2 = Except.error PerformError.invalidMove) :=
  ⟨⟨by decide, by decide⟩,
   c10_terminal_rejects_every_move slides0 gT m0 7 (by decide) (by decide)⟩

/-- A move list is inhabited iff it is not the empty list; this makes
"the team has at least one legal move" decidable by inspecting the list. -/
instance (l : List Move) : Decidable (∃ mv, mv ∈ l) :=
  decidable_of_iff (l ≠ []) (by cases l <;> simp)

/-- C3: `current_team_from_turn t` prefers, on an even `t`, the first team
when it has at least one legal move, else the second team when it has one,
else is absent; on an odd `t` the preference order is reversed. -/
theorem c3_current_team_from_turn_preference
    (slides : Board → HexCoordinate → TeamEnum → List Move)
    (g : GameState) (t : Nat) :
    g.current_team_from_turn slides t =
      if t % 2 = 0 then
        if ∃ mv, mv ∈ g.possible_moves_of slides g.first_team then some g.first_team
        else if ∃ mv, mv ∈ g.possible_moves_of slides g.second_team then some g.second_team
        else none
      else
        if ∃ mv, mv ∈ g.possible_moves_of slides g.second_team then some g.second_team
        else if ∃ mv, mv ∈ g.possible_moves_of slides g.first_team then some g.first_team
        else none := by
  have key : ∀ l : List Move, (∃ mv, mv ∈ l) ↔ l ≠ [] := by
    intro l
    cases l <;> simp
  unfold GameState.current_team_from_turn
  by_cases h1 : g.possible_moves_of slides g.first_team = [] <;>
    by_cases h2 : g.possible_moves_of slides g.second_team = [] <;>
      simp [h1, h2, key]

/-- The modelled cartesian-to-hex conversion is injective (the conversion
is lossless, spec §3). -/
theorem to_hex_inj {x y x' y' : Nat}
    (h : CartesianCoordinate.to_hex ⟨x, y⟩ = CartesianCoordinate.to_hex ⟨x', y'⟩) :
    x = x' ∧ y = y' := by
  simp only [CartesianCoordinate.to_hex, HexCoordinate.mk.injEq] at h
  obtain ⟨hx, hy⟩ := h
  subst hy
  omega

/-- C4: in the placement phase (a team with fewer than 4 placed pieces)
the generated legal moves are exactly one sourceless move per board field
that is unoccupied and holds exactly 1 fish, with that field's coordinate
as destination; in particular no field holding 0 or 2-or-more fish is
targeted, and no field contributes two moves. -/
theorem c4_placement_phase_moves
    (slides : Board → HexCoordinate → TeamEnum → List Move)
    (g : GameState) (team : Team)
    (h : (g.board.get_teams_penguins team.name).length < 4) :
    (∀ m : Move, m ∈ g.possible_moves_of slides team ↔
      (m.team_enum = team.name ∧ m.from_value = none ∧
        ∃ x y, x < g.board.width ∧ y < g.board.height ∧
          m.to_value = CartesianCoordinate.to_hex ⟨x, y⟩ ∧
          (g.board.get_field (CartesianCoordinate.to_hex ⟨x, y⟩)).is_occupied = false ∧
          (g.board.get_field (CartesianCoordinate.to_hex ⟨x, y⟩)).get_fish = 1)) ∧
    (g.possible_moves_of slides team).Nodup := by
  constructor
  · intro m
    obtain ⟨mt, mf, mto⟩ := m
    unfold GameState.possible_moves_of
    rw [if_pos h]
    simp only [List.mem_flatMap, List.mem_filterMap, List.mem_range]
    constructor
    · rintro ⟨x, hx, y, hy, hsome⟩
      rw [Option.ite_none_right_eq_some] at hsome
      obtain ⟨⟨hocc, hfish⟩, hm⟩ := hsome
      injection hm with hm'
      injection hm' with h1 h2 h3
      subst h1
      subst h2
      subst h3
      exact ⟨rfl, rfl, x, y, hx, hy, rfl, hocc, hfish⟩
    · rintro ⟨hteam, hfrom, x, y, hx, hy, hto, hocc, hfish⟩
      subst hteam
      subst hfrom
      subst hto
      refine ⟨x, hx, y, hy, ?_⟩
      rw [Option.ite_none_right_eq_some]
      exact ⟨⟨hocc, hfish⟩, rfl⟩
  · unfold GameState.possible_moves_of
    rw [if_pos h]
    rw [List.nodup_flatMap]
    constructor
    · intro x _
      apply List.Nodup.filterMap
      · intro a a' b hb hb'
        rw [Option.mem_def, Option.ite_none_right_eq_some] at hb hb'
        obtain ⟨_, hb⟩ := hb
        obtain ⟨_, hb'⟩ := hb'
        injection hb.trans hb'.symm with hbb
        injection hbb with h1 h2 h3
        exact (to_hex_inj h3).2
      · exact List.nodup_range _
    · refine (List.pairwise_lt_range _).imp ?_
      intro a b hab mv hma hmb
      simp only [List.mem_filterMap, List.mem_range] at hma hmb
      obtain ⟨y1, hy1, hs1⟩ := hma
      obtain ⟨y2, hy2, hs2⟩ := hmb
      rw [Option.ite_none_right_eq_some] at hs1 hs2
      obtain ⟨_, hs1⟩ := hs1
      obtain ⟨_, hs2⟩ := hs2
      injection hs1.trans hs2.symm with hss
      injection hss with h1 h2 h3
      exact absurd (to_hex_inj h3).1 (Nat.ne_of_lt hab)

/-- C4 witness: on `g0` the first team has 0 placed pieces and the single
field of `b0` holds exactly 1 fish, so the placement characterisation and
the no-duplicates property hold concretely. -/
theorem c4_witness :
    ((g0.board.get_teams_penguins t1.name).length < 4) ∧
    ((∀ m : Move, m ∈ g0.possible_moves_of slides0 t1 ↔
       (m.team_enum = t1.name ∧ m.from_value = none ∧
         ∃ x y, x < g0.board.width ∧ y < g0.board.height ∧
           m.to_value = CartesianCoordinate.to_hex ⟨x, y⟩ ∧
           (g0.board.get_field (CartesianCoordinate.to_hex ⟨x, y⟩)).is_occupied = false ∧
           (g0.board.get_field (CartesianCoordinate.to_hex ⟨x, y⟩)).get_fish = 1)) ∧
     (g0.possible_moves_of slides0 t1).Nodup) :=
  ⟨by decide, c4_placement_phase_moves slides0 g0 t1 (by decide)⟩

/-- Every move the engine generates for a team is declared for that team's
identity: placement moves carry it by construction, and the slide contract
(spec §3: a Move acts for a given side) supplies it for slide moves. -/
theorem team_enum_of_mem_possible_moves_of
    (slides : Board → HexCoordinate → TeamEnum → List Move)
    (hs : ∀ b c te, ∀ mv ∈ slides b c te, mv.team_enum = te)
    (g : GameState) (team : Team) (m : Move)
    (hm : m ∈ g.possible_moves_of slides team) :
    m.team_enum = team.name := by
  obtain ⟨mt, mf, mto⟩ := m
  unfold GameState.possible_moves_of at hm
  by_cases h4 : (g.board.get_teams_penguins team.name).length < 4
  · rw [if_pos h4] at hm
    simp only [List.mem_flatMap, List.mem_filterMap, List.mem_range] at hm
    obtain ⟨x, hx, y, hy, hsome⟩ := hm
    rw [Option.ite_none_right_eq_some] at hsome
    obtain ⟨_, hsome⟩ := hsome
    injection hsome with hm'
    injection hm' with h1 h2 h3
    exact h1.symm
  · rw [if_neg h4] at hm
    simp only [List.mem_flatMap] at hm
    obtain ⟨p, hp, hmem⟩ := hm
    exact hs g.board p.coordinate team.name _ hmem

/-- C5: `is_valid_move` returns true exactly when the move is a member of
the legal-move set generated for the current team and its declared
acting-team identity equals the current team's identity (membership alone
already forces the identity to match, so the single membership test of the
source decides both conditions). -/
theorem c5_is_valid_move_iff
    (slides : Board → HexCoordinate → TeamEnum → List Move)
    (hs : ∀ b c te, ∀ mv ∈ slides b c te, mv.team_enum = te)
    (g : GameState) (m : Move) :
    g.is_valid_move slides m = true ↔
      ∃ t, g.current_team slides = some t ∧
        m ∈ g.possible_moves_of slides t ∧ m.team_enum = t.name := by
  unfold GameState.is_valid_move
  rw [decide_eq_true_iff]
  unfold GameState.possible_moves GameState.get_possible_moves
  cases hct : g.current_team slides with
  | none => simp
  | some t =>
    simp only [Option.some.injEq]
    constructor
    · intro hmem
      exact ⟨t, rfl, hmem, team_enum_of_mem_possible_moves_of slides hs g t m hmem⟩
    · rintro ⟨t', ht', hmem, _⟩
      subst ht'
      exact hmem

/-- C5 witness: on `g0` with the empty slide enumeration the equivalence
holds for the concrete move `m0`. -/
theorem c5_witness :
    (∀ b c te, ∀ mv ∈ slides0 b c te, mv.team_enum = te) ∧
    (g0.is_valid_move slides0 m0 = true ↔
      ∃ t, g0.current_team slides0 = some t ∧
        m0 ∈ g0.possible_moves_of slides0 t ∧ m0.team_enum = t.name) :=
  ⟨fun b c te mv hmv => absurd hmv (by simp [slides0]),
   c5_is_valid_move_iff slides0 (fun b c te mv hmv => absurd hmv (by simp [slides0])) g0 m0⟩

/-- C6: on every successful transition the mover's score increases by
exactly the fish value of the destination field read from the old board,
and the destination field of the new board holds 0 fish. -/
theorem c6_score_conservation
    (slides : Board → HexCoordinate → TeamEnum → List Move)
    (g : GameState) (m : Move) (ctr : Nat) (g' : GameState)
    (h : (g.perform_move slides m ctr).2 = Except.ok g') :
    (g'.team_of m.team_enum).fish - (g.team_of m.team_enum).fish =
      (g.board.get_field m.to_value).get_fish ∧
    (g'.board.get_field m.to_value).get_fish = 0 := by
  unfold GameState.perform_move at h
  by_cases hv : g.is_valid_move slides m
  case neg =>
    rw [if_neg hv] at h
    exact absurd h (by simp)
  rw [if_pos hv] at h
  cases hct : g.current_team slides with
  | none =>
    rw [hct] at h
    exact absurd h (by simp)
  | some current =>
    rw [hct] at h
    dsimp only at h
    by_cases hname : current.name = m.team_enum
    case neg =>
      rw [if_neg hname] at h
      exact absurd h (by simp)
    rw [if_pos hname] at h
    simp only [Except.ok.injEq] at h
    subst h
    cases hcn : current.name with
    | ONE =>
      have hmt : m.team_enum = TeamEnum.ONE := hname.symm.trans hcn
      refine ⟨?_, ?_⟩
      · simp [hmt, hcn, GameState.team_of, update_team_fish, Team.deepCopy]
      · simp [Board.move, Board.get_field, Field.get_fish]
    | TWO =>
      have hmt : m.team_enum = TeamEnum.TWO := hname.symm.trans hcn
      refine ⟨?_, ?_⟩
      · simp [hmt, hcn, GameState.team_of, update_team_fish, Team.deepCopy]
      · simp [Board.move, Board.get_field, Field.get_fish]

/-- C6 witness: performing the placement `m0` on `g0` credits the 1 fish
of the destination field and leaves that field at 0 fish. -/
theorem c6_witness :
    ((g0.perform_move slides0 m0 5).2 = Except.ok w0) ∧
    ((w0.team_of m0.team_enum).fish - (g0.team_of m0.team_enum).fish =
       (g0.board.get_field m0.to_value).get_fish ∧
     (w0.board.get_field m0.to_value).get_fish = 0) :=
  ⟨rfl, c6_score_conservation slides0 g0 m0 5 w0 rfl⟩

/-- C9: on every successful transition the returned state's two teams hold
each other's object ids as opponent references, and, the copies being
freshly allocated, neither reference is the id of a Team object of the
predecessor state. -/
theorem c9_opponent_cross_links
    (slides : Board → HexCoordinate → TeamEnum → List Move)
    (g : GameState) (m : Move) (ctr : Nat) (g' : GameState)
    (hfresh1 : g.first_team.objId < ctr) (hfresh2 : g.second_team.objId < ctr)
    (h : (g.perform_move slides m ctr).2 = Except.ok g') :
    g'.first_team.opponentId = g'.second_team.objId ∧
    g'.second_team.opponentId = g'.first_team.objId ∧
    g'.first_team.opponentId ≠ g.first_team.objId ∧
    g'.first_team.opponentId ≠ g.second_team.objId ∧
    g'.second_team.opponentId ≠ g.first_team.objId ∧
    g'.second_team.opponentId ≠ g.second_team.objId := by
  unfold GameState.perform_move at h
  by_cases hv : g.is_valid_move slides m
  case neg =>
    rw [if_neg hv] at h
    exact absurd h (by simp)
  rw [if_pos hv] at h
  cases hct : g.current_team slides with
  | none =>
    rw [hct] at h
    exact absurd h (by simp)
  | some current =>
    rw [hct] at h
    dsimp only at h
    by_cases hname : current.name = m.team_enum
    case neg =>
      rw [if_neg hname] at h
      exact absurd h (by simp)
    rw [if_pos hname] at h
    simp only [Except.ok.injEq] at h
    subst h
    cases hcn : current.name with
    | ONE =>
      refine ⟨?_, ?_, ?_, ?_, ?_, ?_⟩ <;>
        simp [hcn, Team.deepCopy, update_team_objId] <;> omega
    | TWO =>
      refine ⟨?_, ?_, ?_, ?_, ?_, ?_⟩ <;>
        simp [hcn, Team.deepCopy, update_team_objId] <;> omega

/-- C9 witness: performing `m0` on `g0` under fresh ids 5 and 6 produces
mutually linked team copies whose opponent ids are not the old ids 0, 1. -/
theorem c9_witness :
    (g0.first_team.objId < 5 ∧ g0.second_team.objId < 5 ∧
     (g0.perform_move slides0 m0 5).2 = Except.ok w0) ∧
    (w0.first_team.opponentId = w0.second_team.objId ∧
     w0.second_team.opponentId = w0.first_team.objId ∧
     w0.first_team.opponentId ≠ g0.first_team.objId ∧
     w0.first_team.opponentId ≠ g0.second_team.objId ∧
     w0.second_team.opponentId ≠ g0.first_team.objId ∧
     w0.second_team.opponentId ≠ g0.second_team.objId) :=
  ⟨⟨by decide, by decide, rfl⟩,
   c9_opponent_cross_links slides0 g0 m0 5 w0 (by decide) (by decide) rfl⟩

end Penguins
